import Mathlib

/-!
Verification model of the mesamate-robot-emergency repository.

The development shallowly embeds three parts of the code base:

* `Delivery` — the delivery planner of the renderer component
  (`DeliverySystem`): turn-angle computation, direction arithmetic and
  per-segment path processing (`calculateTurnAngle`, `getNewDirection`,
  `getDirectionFromDelta`, the segment logic of `moveRobot`).
* `Ctrl` — the host serial controller (`arduino-communication.ts`):
  `sendCommand`, `moveDistance`, `turnAngle`, `calculateTurnAngle`,
  `updatePositionAfterMove`.
* `Fw` — the Arduino firmware sketch: obstacle latch (`checkForObstacles`),
  precision movement (`moveDistance`, `turnAngle`, `checkPrecisionMovement`,
  `stopMotors`), the serial command dispatch of `loop`, and the loop cycle
  itself as a step function on the device state.

Machine integers are modelled as `Nat`/`Int` with explicit reduction
modulo 2 to the 32 where the C code computes in `unsigned long`; the
Arduino `float` calibration constants are modelled as exact rationals.
Serial output is modelled as a list of events, one constructor per
distinct line the sketch prints.
-/

unseal Rat.mul Rat.inv Rat.ofScientific Rat.add Rat.sub

namespace Delivery

/-- The four facing directions of the delivery planner, in the array order
`["up", "right", "down", "left"]` used by `DeliverySystem`. -/
inductive Direction where
  | up
  | right
  | down
  | left
deriving DecidableEq

/-- Index of a direction in the planner's `directions` array
`["up", "right", "down", "left"]` (`indexOf`). -/
def dirIndex : Direction → ℤ
  | Direction.up => 0
  | Direction.right => 1
  | Direction.down => 2
  | Direction.left => 3

/-- Direction at a given array index (`directions[newIndex]`); callers only
produce indices 0..3. -/
def dirOfIndex (i : ℤ) : Direction :=
  match i.toNat with
  | 0 => Direction.up
  | 1 => Direction.right
  | 2 => Direction.down
  | _ => Direction.left

/-- `calculateTurnAngle` of `DeliverySystem`: difference of array indices,
normalised into the range -2..2 by adding or subtracting 4, times 90. -/
def calculateTurnAngle (currentDir targetDir : Direction) : ℤ :=
  let turnSteps := dirIndex targetDir - dirIndex currentDir
  let turnSteps := if turnSteps > 2 then turnSteps - 4 else turnSteps
  let turnSteps := if turnSteps < -2 then turnSteps + 4 else turnSteps
  turnSteps * 90

/-- `getDirectionFromDelta` of `DeliverySystem`. -/
def getDirectionFromDelta (dx dy : ℤ) : Option Direction :=
  if dx > 0 then some Direction.right
  else if dx < 0 then some Direction.left
  else if dy > 0 then some Direction.down
  else if dy < 0 then some Direction.up
  else none

/-- `getNewDirection` of `DeliverySystem`: rotate the current facing by
`angle / 90` quarter-steps modulo 4.  At every call site `angle` is a
nonzero multiple of 90 in -180..180, so the JavaScript number arithmetic
agrees with the integer arithmetic used here. -/
def getNewDirection (currentDir : Direction) (angle : ℤ) : Direction :=
  dirOfIndex ((dirIndex currentDir + angle / 90 + 4) % 4)

/-- Pose of the simulated robot: grid position and facing direction. -/
structure Pose where
  x : ℤ
  y : ℤ
  dir : Direction
deriving DecidableEq

/-- A command issued to the robot by the planner for one path segment. -/
inductive RCmd where
  | turn (angle : ℤ)
  | move (inches : ℤ)
deriving DecidableEq

/-- One segment of `moveRobot`: from the current pose to the next path
position.  Computes the delta, derives the target direction, turns when the
turn angle is nonzero, then moves forward 24 inches (one grid unit), and
updates the stored pose exactly as the `setDeliveryState` updater does.
Returns `none` when the delta is zero (`Invalid movement delta`). -/
def stepSegment (p : Pose) (next : ℤ × ℤ) : Option (List RCmd × Pose) :=
  match getDirectionFromDelta (next.1 - p.x) (next.2 - p.y) with
  | none => none
  | some targetDir =>
    let angle := calculateTurnAngle p.dir targetDir
    let cmds := (if angle ≠ 0 then [RCmd.turn angle] else []) ++ [RCmd.move 24]
    let newDir := if angle ≠ 0 then getNewDirection p.dir angle else p.dir
    some (cmds, ⟨next.1, next.2, newDir⟩)

/-- Iterated `moveRobot` over the remaining positions of the current path
(the first path element is the starting position, carried in the pose).
Returns the per-segment command lists and the final pose. -/
def processPath (p : Pose) : List (ℤ × ℤ) → Option (List (List RCmd) × Pose)
  | [] => some ([], p)
  | next :: rest =>
    match stepSegment p next with
    | none => none
    | some (cmds, p') =>
      match processPath p' rest with
      | none => none
      | some (out, pf) => some (cmds :: out, pf)

/-- Number of turn commands in a command list. -/
def countTurns (cmds : List RCmd) : ℕ :=
  cmds.countP (fun c => match c with | RCmd.turn _ => true | _ => false)

/-- The direction opposite to a given one (the U-turn target). This is a
specification-side notion used to state claims about U-turns. -/
def oppositeDir : Direction → Direction
  | Direction.up => Direction.down
  | Direction.down => Direction.up
  | Direction.left => Direction.right
  | Direction.right => Direction.left

end Delivery

namespace Ctrl

/-- Cardinal directions of the host controller, in the array order
`['north', 'east', 'south', 'west']` used by its `calculateTurnAngle`. -/
inductive Card where
  | north
  | east
  | south
  | west
deriving DecidableEq

/-- Index in the controller's `directions` array. -/
def cardIndex : Card → ℤ
  | Card.north => 0
  | Card.east => 1
  | Card.south => 2
  | Card.west => 3

/-- `calculateTurnAngle` of `ArduinoController`: `(required - current + 4) % 4`
mapped to 90 / 180 / -90 / 0. -/
def calculateTurnAngle (current required : Card) : ℤ :=
  let turns := (cardIndex required - cardIndex current + 4) % 4
  if turns = 1 then 90
  else if turns = 2 then 180
  else if turns = 3 then -90
  else 0

/-- Card at a given array index modulo 4. -/
def cardOfIndex (i : ℤ) : Card :=
  match (i % 4).toNat with
  | 0 => Card.north
  | 1 => Card.east
  | 2 => Card.south
  | _ => Card.west

/-- Modelled from the spec: `applyTurn`, rotation of a cardinal facing by
`angle / 90` quarter-steps modulo 4.  The controller itself has no such
function (its optimistic update after `turnAngle` steps a single quarter);
this definition follows the spec's words and is compared against the angles
the code computes. -/
def applyTurn (c : Card) (angle : ℤ) : Card :=
  cardOfIndex (cardIndex c + angle / 90 + 4)

/-- The cardinal direction opposite to a given one. -/
def oppositeCard : Card → Card
  | Card.north => Card.south
  | Card.south => Card.north
  | Card.east => Card.west
  | Card.west => Card.east

end Ctrl

namespace Fw

/-- Distances (in cm) reported by the three ultrasonic sensors for one
sampling cycle (`readUltrasonicMedian` results for UTS1, UTS2, UTS3). -/
structure Dists where
  d1 : ℚ
  d2 : ℚ
  d3 : ℚ
deriving DecidableEq

/-- `OBSTACLE_DISTANCE_CM` (8 inches in cm). -/
def OBSTACLE_DISTANCE_CM : ℚ := 20.32

/-- `CLEAR_HYSTERESIS_CM`. -/
def CLEAR_HYSTERESIS_CM : ℚ := 5.0

/-- `REQUIRED_CONSECUTIVE_HITS`. -/
def REQUIRED_CONSECUTIVE_HITS : ℕ := 3

/-- `INCHES_PER_SECOND` (the constant in the sketch is 3.0). -/
def INCHES_PER_SECOND : ℚ := 3.0

/-- `MS_PER_INCH = 1000.0 / INCHES_PER_SECOND`. -/
def MS_PER_INCH : ℚ := 1000.0 / INCHES_PER_SECOND

/-- `DEGREES_PER_MS = 90.0 / 500.0`. -/
def DEGREES_PER_MS : ℚ := 90.0 / 500.0

/-- `precisionSpeed`. -/
def precisionSpeed : ℤ := 150

/-- `normalX` reference accelerometer value. -/
def normalX : ℤ := 13

/-- `normalY` reference accelerometer value. -/
def normalY : ℤ := 172

/-- `tolerance` for the accelerometer deltas. -/
def tolerance : ℤ := 4

/-- `anyBelow`: some sensor reads strictly below the trigger distance. -/
def anyBelow (d : Dists) : Bool :=
  decide (d.d1 < OBSTACLE_DISTANCE_CM) || decide (d.d2 < OBSTACLE_DISTANCE_CM) ||
    decide (d.d3 < OBSTACLE_DISTANCE_CM)

/-- `allClearWithMargin`: every sensor reads strictly above the trigger
distance plus the hysteresis margin. -/
def allClearWithMargin (d : Dists) : Bool :=
  decide (OBSTACLE_DISTANCE_CM + CLEAR_HYSTERESIS_CM < d.d1) &&
    decide (OBSTACLE_DISTANCE_CM + CLEAR_HYSTERESIS_CM < d.d2) &&
    decide (OBSTACLE_DISTANCE_CM + CLEAR_HYSTERESIS_CM < d.d3)

/-- Debounce state of the obstacle latch: `obstacleHitCount`,
`clearHitCount`, `obstacleLatched`. -/
structure LatchSt where
  hit : ℕ
  clear : ℕ
  latched : Bool
deriving DecidableEq

/-- Latch state at boot: both counters zero, not latched. -/
def latchInit : LatchSt := ⟨0, 0, false⟩

/-- One line the sketch prints on the serial port; one constructor per
distinct message.  Transient debug prints that carry no state (the gyro
debug line and the raw sensor prints of the test commands) are folded into
the event of their surrounding routine. -/
inductive Ev where
  | received (s : String)
  | blocked
  | movingMsg
  | turningMsg
  | paused
  | resumed
  | complete
  | distanceDoneMsg
  | angleDoneMsg
  | motorsStopped
  | gyroFail
  | obstacleDetectedMsg
  | obstacleClearedMsg
  | latchedMsg
  | latchClearedMsg
  | unknownCmd (s : String)
  | statusMsg
  | resetMsg
  | forwardMsg
  | forwardDoneMsg
  | stopObstacleMsg
  | leftMsg
  | leftDoneMsg
  | rightMsg
  | rightDoneMsg
  | tableOn (n : ℕ)
  | tableOff (n : ℕ)
  | testUtsMsg
  | testGyroMsg
deriving DecidableEq

/-- `checkForObstacles` on the latch state: update the debounce counters
from one sampling cycle, engage the latch after `REQUIRED_CONSECUTIVE_HITS`
hit counts, clear it after the same number of clear counts.  Returns the
new state and the printed messages; the boolean result of the C function is
the `latched` field of the returned state. -/
def latchStep (s : LatchSt) (d : Dists) : LatchSt × List Ev :=
  let s1 :=
    if anyBelow d then
      { s with hit := min (s.hit + 1) REQUIRED_CONSECUTIVE_HITS, clear := 0 }
    else if allClearWithMargin d then
      { s with clear := min (s.clear + 1) REQUIRED_CONSECUTIVE_HITS, hit := 0 }
    else s
  let s2 :=
    if s1.latched = false ∧ REQUIRED_CONSECUTIVE_HITS ≤ s1.hit then
      { s1 with latched := true }
    else s1
  let evs1 :=
    if s1.latched = false ∧ REQUIRED_CONSECUTIVE_HITS ≤ s1.hit then
      [Ev.latchedMsg]
    else ([] : List Ev)
  let s3 :=
    if s2.latched = true ∧ REQUIRED_CONSECUTIVE_HITS ≤ s2.clear then
      { s2 with latched := false }
    else s2
  let evs2 :=
    if s2.latched = true ∧ REQUIRED_CONSECUTIVE_HITS ≤ s2.clear then
      [Ev.latchClearedMsg]
    else ([] : List Ev)
  (s3, evs1 ++ evs2)

/-- `checkForObstacles` iterated over a list of sampling cycles. -/
def runLatch (s : LatchSt) (l : List Dists) : LatchSt :=
  l.foldl (fun s d => (latchStep s d).1) s

/-- Number of below-threshold cycles since the most recent
all-clear-with-margin cycle (cycles inside the hysteresis band neither
count nor reset). -/
def belowSince (l : List Dists) : ℕ :=
  l.foldl (fun acc d => if anyBelow d then acc + 1
    else if allClearWithMargin d then 0 else acc) 0

/-- Number of all-clear-with-margin cycles since the most recent
below-threshold cycle. -/
def clearSince (l : List Dists) : ℕ :=
  l.foldl (fun acc d => if anyBelow d then 0
    else if allClearWithMargin d then acc + 1 else acc) 0

/-- Motor drive state, abstracting the direction/speed pin writes. -/
inductive MotorMode where
  | stopped
  | forward (l r : ℕ)
  | turningRight
  | turningLeft
deriving DecidableEq

/-- The global device state of the sketch. -/
structure RobotState where
  isMoving : Bool
  currentCommand : String
  movementStartTime : ℕ
  targetDistance : ℚ
  targetAngle : ℚ
  isPrecisionMode : Bool
  pausedForObstacle : Bool
  pauseStartTime : ℕ
  totalPausedMs : ℕ
  latch : LatchSt
  lastObstacle : Bool
  motors : MotorMode
  led1 : Bool
  led2 : Bool
  led3 : Bool
deriving DecidableEq

/-- Device state after `setup()`: `stopMotors()` has run (motors stopped,
`isMoving = false`, `currentCommand = "STOP"`), all counters zero, table
LEDs off. -/
def bootState : RobotState :=
  { isMoving := false
    currentCommand := ("STOP")
    movementStartTime := 0
    targetDistance := 0
    targetAngle := 0
    isPrecisionMode := false
    pausedForObstacle := false
    pauseStartTime := 0
    totalPausedMs := 0
    latch := latchInit
    lastObstacle := false
    motors := MotorMode.stopped
    led1 := false
    led2 := false
    led3 := false }

/-- `unsigned long` reduction: value modulo 2 to the 32, as a natural. -/
def u32 (n : ℤ) : ℕ := (n % (2 ^ 32)).toNat

/-- Truncation of a rational toward zero, as C float-to-integer
conversion does. -/
def qTrunc (q : ℚ) : ℤ := if 0 ≤ q then ⌊q⌋ else ⌈q⌉

/-- `(unsigned long)` cast of a float expression. -/
def castUL (q : ℚ) : ℕ := u32 (qTrunc q)

/-- `checkForObstacles` acting on the whole device state. -/
def checkForObstacles (st : RobotState) (d : Dists) :
    RobotState × Bool × List Ev :=
  let (l, evs) := latchStep st.latch d
  ({ st with latch := l }, l.latched, evs)

/-- `stopMotors()`: clears `isMoving`, sets `currentCommand` to `STOP`,
stops both motors and prints `Motors stopped`. -/
def stopMotors (st : RobotState) : RobotState × List Ev :=
  ({ st with isMoving := false
             currentCommand := ("STOP")
             motors := MotorMode.stopped }, [Ev.motorsStopped])

/-- `moveDistance(float inches)`: rejected with a `BLOCKED` line when
already moving; otherwise records the precision move and its start time and
resets the pause accounting (the motors start in
`checkPrecisionMovement`). -/
def moveDistance (st : RobotState) (now : ℕ) (inches : ℚ) :
    RobotState × List Ev :=
  if st.isMoving then (st, [Ev.blocked])
  else
    ({ st with isMoving := true
               isPrecisionMode := true
               currentCommand := ("MOVE_DISTANCE")
               targetDistance := inches
               movementStartTime := now
               pausedForObstacle := false
               totalPausedMs := 0 }, [Ev.movingMsg])

/-- `turnAngle(float degrees)`: rejected with a `BLOCKED` line when already
moving; otherwise records the precision turn, its start time, and starts
the motors turning right for positive angles, left otherwise.  Unlike
`moveDistance` it does not reset `pausedForObstacle` or `totalPausedMs`. -/
def turnAngle (st : RobotState) (now : ℕ) (degrees : ℚ) :
    RobotState × List Ev :=
  if st.isMoving then (st, [Ev.blocked])
  else
    ({ st with isMoving := true
               isPrecisionMode := true
               currentCommand := ("TURN_ANGLE")
               targetAngle := degrees
               movementStartTime := now
               motors := if 0 < degrees then MotorMode.turningRight
                 else MotorMode.turningLeft }, [Ev.turningMsg])

/-- C `constrain` on integers (the call sites all have `lo ≤ hi`). -/
def constrainI (v lo hi : ℤ) : ℤ := min (max v lo) hi

/-- The gyro-corrected forward drive of `checkPrecisionMovement`: computes
the two motor speeds from an accelerometer reading (x and y components; the
z component is only printed) and drives forward, falling back to the base
precision speed when the read fails.  The rate-limited debug print carries
no state relevant to any claim and is not emitted as an event. -/
def driveWithGyro (st : RobotState) (g : Option (ℤ × ℤ)) :
    RobotState × List Ev :=
  match g with
  | none =>
    ({ st with motors := MotorMode.forward (u32 precisionSpeed) (u32 precisionSpeed) },
      [Ev.gyroFail])
  | some (x, y) =>
    let deltaX := x - normalX
    let deltaY := y - normalY
    let leftSpeed : ℤ := precisionSpeed
    let rightSpeed : ℤ := precisionSpeed
    let (leftSpeed, rightSpeed) :=
      if deltaX > tolerance then
        (leftSpeed, rightSpeed + constrainI ((deltaX.natAbs : ℤ) / 4) 0 30)
      else if deltaX < -tolerance then
        (leftSpeed + constrainI ((deltaX.natAbs : ℤ) / 4) 0 30, rightSpeed)
      else (leftSpeed, rightSpeed)
    let (leftSpeed, rightSpeed) :=
      if (deltaY.natAbs : ℤ) > tolerance then
        let adjust := constrainI ((deltaY.natAbs : ℤ) / 10) 0 10
        (leftSpeed - adjust, rightSpeed - adjust)
      else (leftSpeed, rightSpeed)
    let leftSpeed := constrainI leftSpeed 100 255
    let rightSpeed := constrainI rightSpeed 100 255
    ({ st with motors := MotorMode.forward leftSpeed.toNat rightSpeed.toNat }, [])

/-- `checkPrecisionMovement()`: called each loop cycle while a precision
movement is active.  `now` is the `millis()` reading, `d` the sensor cycle
consumed by the embedded `checkForObstacles` call, `g` the accelerometer
reading.  `effectiveElapsed` is computed once on entry, in `unsigned long`
arithmetic, before the pause accounting is updated. -/
def checkPrecisionMovement (st : RobotState) (now : ℕ) (d : Dists)
    (g : Option (ℤ × ℤ)) : RobotState × List Ev :=
  let effectiveElapsed :=
    u32 ((now : ℤ) - (st.movementStartTime : ℤ) - (st.totalPausedMs : ℤ))
  if st.currentCommand = ("MOVE_DISTANCE") then
    let (st, obstacle, evs1) := checkForObstacles st d
    if obstacle then
      if ¬ st.pausedForObstacle then
        let (st, evs2) := stopMotors st
        ({ st with pausedForObstacle := true, pauseStartTime := now },
          evs1 ++ evs2 ++ [Ev.paused])
      else (st, evs1)
    else
      let (st, evs2) :=
        if st.pausedForObstacle then
          ({ st with
             totalPausedMs := st.totalPausedMs + u32 ((now : ℤ) - (st.pauseStartTime : ℤ)),
             pausedForObstacle := false }, [Ev.resumed])
        else (st, [])
      let (st, evs3) := driveWithGyro st g
      let targetTime := castUL (st.targetDistance * MS_PER_INCH)
      if targetTime ≤ effectiveElapsed then
        let (st, evs4) := stopMotors st
        ({ st with isPrecisionMode := false },
          evs1 ++ evs2 ++ evs3 ++ [Ev.distanceDoneMsg, Ev.complete] ++ evs4)
      else (st, evs1 ++ evs2 ++ evs3)
  else if st.currentCommand = ("TURN_ANGLE") then
    let targetTime := castUL (|st.targetAngle| / DEGREES_PER_MS)
    if targetTime ≤ effectiveElapsed then
      let (st, evs4) := stopMotors st
      ({ st with isPrecisionMode := false },
        [Ev.angleDoneMsg, Ev.complete] ++ evs4)
    else (st, [])
  else (st, [])

end Fw

namespace Fw

/-- `toupper` of avr-libc as used by Arduino `String::toUpperCase`:
ASCII lower-case letters map to upper case, all else unchanged. -/
def upperC (c : Char) : Char :=
  if 'a' ≤ c ∧ c ≤ 'z' then Char.ofNat (c.toNat - 32) else c

/-- `isspace` of avr-libc as used by Arduino `String::trim`. -/
def isSpaceC (c : Char) : Bool :=
  (c == ' ') || (c == '\t') || (c == '\n') || (c == '\x0b') ||
    (c == '\x0c') || (c == '\r')

/-- Arduino `String::trim`: remove leading and trailing whitespace. -/
def trimChars (l : List Char) : List Char :=
  ((l.dropWhile isSpaceC).reverse.dropWhile isSpaceC).reverse

/-- Arduino `String::startsWith`. -/
def startsWithChars : List Char → List Char → Bool
  | _, [] => true
  | [], _ :: _ => false
  | c :: cs, p :: ps => (c == p) && startsWithChars cs ps

/-- A parsed serial command: the first matching branch of the dispatch
chain in `loop()`.  The numeric arguments of the precision commands are
kept as the raw argument substrings (`command.substring(14)` and
`command.substring(11)`). -/
inductive FwCmd where
  | moveDist (arg : String)
  | turnAng (arg : String)
  | forward
  | leftTurn
  | rightTurn
  | stopCmd
  | testUts
  | testGyro
  | tableArr (n : ℕ)
  | tableRec (n : ℕ)
  | statusCmd
  | resetCmd
  | unknown
deriving DecidableEq

/-- The dispatch chain of `loop()` on the trimmed, upper-cased command. -/
def parseCommand (c : String) : FwCmd :=
  if startsWithChars c.data ("MOVE_DISTANCE:").data then
    FwCmd.moveDist ⟨c.data.drop 14⟩
  else if startsWithChars c.data ("TURN_ANGLE:").data then
    FwCmd.turnAng ⟨c.data.drop 11⟩
  else if c = ("FORWARD") then FwCmd.forward
  else if c = ("LEFT") then FwCmd.leftTurn
  else if c = ("RIGHT") then FwCmd.rightTurn
  else if c = ("STOP") then FwCmd.stopCmd
  else if c = ("TEST_UTS") then FwCmd.testUts
  else if c = ("TEST_GYRO") then FwCmd.testGyro
  else if c = ("TABLE1_ARRIVED") then FwCmd.tableArr 1
  else if c = ("TABLE1_RECEIVED") then FwCmd.tableRec 1
  else if c = ("TABLE2_ARRIVED") then FwCmd.tableArr 2
  else if c = ("TABLE2_RECEIVED") then FwCmd.tableRec 2
  else if c = ("TABLE3_ARRIVED") then FwCmd.tableArr 3
  else if c = ("TABLE3_RECEIVED") then FwCmd.tableRec 3
  else if c = ("STATUS") then FwCmd.statusCmd
  else if c = ("RESET") then FwCmd.resetCmd
  else FwCmd.unknown

/-- Environment of one `loop()` iteration: the `millis()` reading, the
pending serial line (if `Serial.available()`), the sensor cycles consumed
by the two possible `checkForObstacles` calls, the accelerometer reading,
and the data consumed by the blocking legacy `FORWARD` handler.  `toFloat`
stands for Arduino `String::toFloat`, left abstract because no claim
depends on its numeric result. -/
structure LoopIn where
  now : ℕ
  line : Option String
  toFloat : String → ℚ
  sensTop : Dists
  sensChk : Dists
  accel : Option (ℤ × ℤ)
  tuDists : Dists
  fwdReads : List Dists

/-- Body of the blocking while loop of the legacy `moveForward` handler:
one `checkForObstacles` cycle per iteration; an engaged latch stops the
motors and aborts, otherwise the motors drive forward at the (gyro
corrected) base speed; when the movement time expires the motors stop and
the completion message is printed.  The per-iteration gyro speed nudges
are transient pin writes with no effect on the final state and are
abstracted to the base speed. -/
def moveForwardGo : RobotState → List Dists → RobotState × List Ev
  | st, [] =>
    let (st, e) := stopMotors st
    ({ st with isMoving := false }, e ++ [Ev.forwardDoneMsg])
  | st, d :: rest =>
    let (st, obst, e1) := checkForObstacles st d
    if obst then
      let (st, e2) := stopMotors st
      ({ st with isMoving := false }, e1 ++ [Ev.stopObstacleMsg] ++ e2)
    else
      let st := { st with motors := MotorMode.forward 180 180 }
      let (st, e3) := moveForwardGo st rest
      (st, e1 ++ e3)

/-- Legacy `moveForward()`: blocked while moving; otherwise runs the
time-bounded forward loop, one sensor cycle per iteration. -/
def moveForward (st : RobotState) (reads : List Dists) :
    RobotState × List Ev :=
  if st.isMoving then (st, [Ev.blocked])
  else
    let st := { st with isMoving := true, currentCommand := ("FORWARD") }
    let (st, e) := moveForwardGo st reads
    (st, [Ev.forwardMsg] ++ e)

/-- Legacy `turnLeft()`: blocked while moving; otherwise turns for the
fixed time and stops. -/
def turnLeft (st : RobotState) : RobotState × List Ev :=
  if st.isMoving then (st, [Ev.blocked])
  else
    let st := { st with isMoving := true
                        currentCommand := ("LEFT")
                        motors := MotorMode.turningLeft }
    let (st, e) := stopMotors st
    ({ st with isMoving := false }, [Ev.leftMsg] ++ e ++ [Ev.leftDoneMsg])

/-- Legacy `turnRight()`: blocked while moving; otherwise turns for the
fixed time and stops. -/
def turnRight (st : RobotState) : RobotState × List Ev :=
  if st.isMoving then (st, [Ev.blocked])
  else
    let st := { st with isMoving := true
                        currentCommand := ("RIGHT")
                        motors := MotorMode.turningRight }
    let (st, e) := stopMotors st
    ({ st with isMoving := false }, [Ev.rightMsg] ++ e ++ [Ev.rightDoneMsg])

/-- `tableArrived`: turns the indicator LED of the table on. -/
def tableArrived (st : RobotState) (n : ℕ) : RobotState × List Ev :=
  let st :=
    if n = 1 then { st with led1 := true }
    else if n = 2 then { st with led2 := true }
    else if n = 3 then { st with led3 := true }
    else st
  (st, [Ev.tableOn n])

/-- `tableReceived`: turns the indicator LED of the table off. -/
def tableReceived (st : RobotState) (n : ℕ) : RobotState × List Ev :=
  let st :=
    if n = 1 then { st with led1 := false }
    else if n = 2 then { st with led2 := false }
    else if n = 3 then { st with led3 := false }
    else st
  (st, [Ev.tableOff n])

/-- `testUltrasonicSensors()`: prints the three raw readings, then runs one
`checkForObstacles` cycle and reports the result. -/
def testUltrasonic (st : RobotState) (d : Dists) : RobotState × List Ev :=
  let (st, _, evs) := checkForObstacles st d
  (st, [Ev.testUtsMsg] ++ evs)

/-- The `RESET` handler: stop the motors and clear the movement flags. -/
def resetState (st : RobotState) : RobotState × List Ev :=
  let (st, e) := stopMotors st
  ({ st with isMoving := false
             isPrecisionMode := false
             pausedForObstacle := false
             currentCommand := ("STOP") }, e ++ [Ev.resetMsg])

/-- Execute one parsed command on the device state; `c` is the normalised
command string, echoed back in the unknown-command diagnostic. -/
def execCommand (i : LoopIn) (st : RobotState) (c : String) :
    FwCmd → RobotState × List Ev
  | FwCmd.moveDist arg => moveDistance st i.now (i.toFloat arg)
  | FwCmd.turnAng arg => turnAngle st i.now (i.toFloat arg)
  | FwCmd.forward => moveForward st i.fwdReads
  | FwCmd.leftTurn => turnLeft st
  | FwCmd.rightTurn => turnRight st
  | FwCmd.stopCmd => stopMotors st
  | FwCmd.testUts => testUltrasonic st i.tuDists
  | FwCmd.testGyro => (st, [Ev.testGyroMsg])
  | FwCmd.tableArr n => tableArrived st n
  | FwCmd.tableRec n => tableReceived st n
  | FwCmd.statusCmd => (st, [Ev.statusMsg])
  | FwCmd.resetCmd => resetState st
  | FwCmd.unknown => (st, [Ev.unknownCmd c])

/-- Normalisation applied by `loop()` to every received line:
`command.trim()` then `command.toUpperCase()`. -/
def normalizeLine (l : String) : String := ⟨(trimChars l.data).map upperC⟩

/-- Processing of an already normalised command string: echo the command,
then dispatch it. -/
def processCommandLine (i : LoopIn) (st : RobotState) (c : String) :
    RobotState × List Ev :=
  let (st, evs) := execCommand i st c (parseCommand c)
  (st, Ev.received c :: evs)

/-- Processing of one received serial line by `loop()`: trim and uppercase,
echo, dispatch. -/
def processLine (i : LoopIn) (st : RobotState) (l : String) :
    RobotState × List Ev :=
  processCommandLine i st (normalizeLine l)

/-- The serial and movement phase of one `loop()` iteration: process a
pending serial line, then poll `checkPrecisionMovement` while a precision
movement is active (`isMoving && isPrecisionMode`). -/
def loopTail (i : LoopIn) (st : RobotState) : RobotState × List Ev :=
  let (st, e3) :=
    match i.line with
    | none => (st, [])
    | some l => processLine i st l
  let (st, e4) :=
    if st.isMoving && st.isPrecisionMode then
      checkPrecisionMovement st i.now i.sensChk i.accel
    else (st, [])
  (st, e3 ++ e4)

/-- One full iteration of `loop()`: publish obstacle latch changes, then
the serial and movement phase. -/
def loopStep (i : LoopIn) (st : RobotState) : RobotState × List Ev :=
  let (st, obstacleNow, e1) := checkForObstacles st i.sensTop
  let (st, e2) :=
    if obstacleNow ≠ st.lastObstacle then
      ({ st with lastObstacle := obstacleNow },
        [if obstacleNow then Ev.obstacleDetectedMsg else Ev.obstacleClearedMsg])
    else (st, [])
  let (st, e34) := loopTail i st
  (st, e1 ++ e2 ++ e34)

/-- A sequence of loop iterations, collecting all serial output. -/
def runLoop (st : RobotState) : List LoopIn → RobotState × List Ev
  | [] => (st, [])
  | i :: rest =>
    let (st, e) := loopStep i st
    let (st', e') := runLoop st rest
    (st', e ++ e')

/-- Reachability of a device state: `bootState` after `setup()`, then any
number of loop iterations with monotone `millis()` readings.  The natural
number is the time of the latest iteration. -/
inductive Reachable : RobotState → ℕ → Prop where
  | boot : Reachable bootState 0
  | step (st : RobotState) (t : ℕ) (i : LoopIn) :
      Reachable st t → t ≤ i.now → Reachable (loopStep i st).1 i.now

end Fw

namespace Ctrl

/-- How the serial write requested by `sendCommand` behaves: the write
callback fires with success, fires with an error, or never fires before
the 5-second guard timer. -/
inductive WriteOutcome where
  | ok
  | error
  | hang
deriving DecidableEq

/-- Environment of one `sendCommand` call: whether `this.port` exists and
`this.isConnected` holds on entry, whether the port is still non-null
inside the promise executor, how the write behaves, and at what time (ms)
its callback would fire. -/
structure SendEnv where
  portExists : Bool
  connected : Bool
  portAlive : Bool
  write : WriteOutcome
  cbTime : ℕ
deriving DecidableEq

/-- How the promise returned by `sendCommand` settles. -/
inductive Settled where
  | resolved
  | rejected
deriving DecidableEq

/-- Result of a `sendCommand` call: how the promise settled, whether a
write was handed to the serial port, and an upper bound on the time at
which it settled (the guard timer fires at 5000 ms and resolves). -/
structure SendResult where
  settled : Settled
  wrote : Bool
  settleTime : ℕ
deriving DecidableEq

/-- The `SEND_TIMEOUT` of `sendCommand` (5 seconds). -/
def SEND_TIMEOUT_MS : ℕ := 5000

/-- `sendCommand` of `ArduinoController`: a disconnected controller logs
and returns resolved without writing; a null port inside the executor
resolves; a write error resolves; a write whose callback never fires is
resolved by the 5-second guard timer; a successful write resolves when its
callback fires (the guard timer wins if the callback is later). -/
def sendCommand (env : SendEnv) : SendResult :=
  if ¬ (env.portExists ∧ env.connected) then
    { settled := Settled.resolved, wrote := false, settleTime := 0 }
  else if ¬ env.portAlive then
    { settled := Settled.resolved, wrote := false, settleTime := 0 }
  else
    match env.write with
    | WriteOutcome.hang =>
      { settled := Settled.resolved, wrote := true, settleTime := SEND_TIMEOUT_MS }
    | WriteOutcome.error =>
      { settled := Settled.resolved, wrote := true,
        settleTime := min env.cbTime SEND_TIMEOUT_MS }
    | WriteOutcome.ok =>
      { settled := Settled.resolved, wrote := true,
        settleTime := min env.cbTime SEND_TIMEOUT_MS }

/-- A command line handed to `sendCommand` by the controller's public
methods. -/
inductive Sent where
  | moveDist (inches : ℚ)
  | turnAng (degrees : ℚ)
deriving DecidableEq

/-- Stored pose of the controller (`currentPosition`). -/
structure CPos where
  x : ℤ
  y : ℤ
  direction : Card
deriving DecidableEq

/-- `updatePositionAfterMove('forward')`: one grid cell in the facing
direction, clamped to the 0..4 board. -/
def updateForward (p : CPos) : CPos :=
  match p.direction with
  | Card.north => { p with y := max 0 (p.y - 1) }
  | Card.south => { p with y := min 4 (p.y + 1) }
  | Card.east => { p with x := min 4 (p.x + 1) }
  | Card.west => { p with x := max 0 (p.x - 1) }

/-- `updatePositionAfterMove('left')`: one quarter turn left. -/
def updateLeft (p : CPos) : CPos :=
  { p with direction :=
      match p.direction with
      | Card.north => Card.west
      | Card.south => Card.east
      | Card.east => Card.north
      | Card.west => Card.south }

/-- `updatePositionAfterMove('right')`: one quarter turn right. -/
def updateRight (p : CPos) : CPos :=
  { p with direction :=
      match p.direction with
      | Card.north => Card.east
      | Card.south => Card.west
      | Card.east => Card.south
      | Card.west => Card.north }

/-- `moveDistance(inches, speed)` of the controller: non-positive distances
are rejected with a log line before anything is sent; otherwise the
`MOVE_DISTANCE` line is handed to `sendCommand` and the stored pose is
optimistically advanced one cell. -/
def moveDistance (p : CPos) (inches : ℚ) : CPos × List Sent :=
  if inches ≤ 0 then (p, [])
  else (updateForward p, [Sent.moveDist inches])

/-- `turnAngle(degrees, speed)` of the controller: a zero angle is
rejected with a log line before anything is sent; otherwise the
`TURN_ANGLE` line is handed to `sendCommand` and the stored facing is
optimistically stepped one quarter turn in the sign of the angle. -/
def turnAngle (p : CPos) (degrees : ℚ) : CPos × List Sent :=
  if degrees = 0 then (p, [])
  else if 0 < degrees then (updateRight p, [Sent.turnAng degrees])
  else (updateLeft p, [Sent.turnAng degrees])

end Ctrl

namespace Fw

/-- A sampling cycle with all sensors far from any obstacle. -/
def clearCycle : Dists := ⟨100, 100, 100⟩

/-- A sampling cycle with the front sensor below the trigger distance. -/
def nearCycle : Dists := ⟨10, 100, 100⟩

/-- A sampling cycle inside the hysteresis band: above the trigger
distance but not above trigger plus margin. -/
def bandCycle : Dists := ⟨22, 100, 100⟩

/-- A loop iteration at time `t` with serial line `l`, both sensor cycles
reading `s`, a failed accelerometer read, and `toFloat` returning 24. -/
def quietIn (t : ℕ) (l : Option String) (s : Dists) : LoopIn :=
  { now := t
    line := l
    toFloat := fun _ => 24
    sensTop := s
    sensChk := s
    accel := none
    tuDists := clearCycle
    fwdReads := [] }

/-- The concrete device run for the paused-movement scenario:
`MOVE_DISTANCE:24` accepted at time 0, obstacle sampled from time 200 on,
latched at time 400 (three hit cycles), clear again from time 600 on
(latch clears at time 1000), last polled at time 20000 — far beyond the
8000 ms target time of a 24-inch move. -/
def c2Trace : List LoopIn :=
  [quietIn 0 (some ("MOVE_DISTANCE:24")) clearCycle,
   quietIn 200 none nearCycle,
   quietIn 400 none nearCycle,
   quietIn 600 none clearCycle,
   quietIn 800 none clearCycle,
   quietIn 1000 none clearCycle,
   quietIn 20000 none clearCycle]

/-- The device state and serial output after running `c2Trace` from boot. -/
def c2Run : RobotState × List Ev := runLoop bootState c2Trace

/-- The loop iteration that accepts `TURN_ANGLE:90` at time 5 with no
obstacle in sight. -/
def turnAccept : LoopIn :=
  { now := 5
    line := some ("TURN_ANGLE:90")
    toFloat := fun _ => 90
    sensTop := clearCycle
    sensChk := clearCycle
    accel := none
    tuDists := clearCycle
    fwdReads := [] }

/-- The device state right after the `TURN_ANGLE:90` command was accepted
at time 5. -/
def turnState : RobotState := (loopStep turnAccept bootState).1

end Fw

/-- C1 counterexample: for the pair (up, down) the planner's
`calculateTurnAngle` returns 180, which is not in the claimed set of
turn angles -180, -90, 0, 90. -/
theorem c1_up_down_gives_180 :
    Delivery.calculateTurnAngle Delivery.Direction.up Delivery.Direction.down = 180 ∧
    (180 : ℤ) ∉ ([-180, -90, 0, 90] : List ℤ) := by
  decide

/-- C1 (amended): for every pair of directions the planner's turn angle
lies in the set -180, -90, 0, 90, 180 (not -180..90 as claimed) and
applying it to the current facing with `getNewDirection` (rotation by
angle / 90 quarter-steps modulo 4) yields exactly the target; likewise the
serial controller's `calculateTurnAngle` yields an angle in -90, 0, 90,
180 whose quarter-step application reaches the required direction. -/
theorem c1_turn_angle_amended :
    (∀ c t : Delivery.Direction,
      Delivery.calculateTurnAngle c t ∈ ([-180, -90, 0, 90, 180] : List ℤ) ∧
      Delivery.getNewDirection c (Delivery.calculateTurnAngle c t) = t) ∧
    (∀ c t : Ctrl.Card,
      Ctrl.calculateTurnAngle c t ∈ ([-90, 0, 90, 180] : List ℤ) ∧
      Ctrl.applyTurn c (Ctrl.calculateTurnAngle c t) = t) := by
  refine ⟨?_, ?_⟩ <;> intro c t <;> cases c <;> cases t <;> decide

/-- C5 counterexample: for the opposite pair (down, up) the planner
returns -180, not +180 as the claim states for both orders of a U-turn
pair. -/
theorem c5_down_up_gives_minus_180 :
    Delivery.oppositeDir Delivery.Direction.down = Delivery.Direction.up ∧
    Delivery.calculateTurnAngle Delivery.Direction.down Delivery.Direction.up = -180 := by
  decide

/-- C5 (amended): a U-turn is always expressed as a single turn of
magnitude 180 — +180 exactly when the target's array index exceeds the
current one by 2 (up to down, right to left) and -180 for the two reverse
orders — never as two separate 90-degree turns (each path segment carries
at most one turn command); the serial controller's `calculateTurnAngle`
returns +180 for both orders of every opposite pair. -/
theorem c5_u_turn_amended :
    (∀ c t : Delivery.Direction, t = Delivery.oppositeDir c →
      (Delivery.calculateTurnAngle c t).natAbs = 180 ∧
      (Delivery.calculateTurnAngle c t = 180 ↔
        Delivery.dirIndex t - Delivery.dirIndex c = 2) ∧
      (Delivery.calculateTurnAngle c t = -180 ↔
        Delivery.dirIndex t - Delivery.dirIndex c = -2)) ∧
    (∀ c t : Ctrl.Card, t = Ctrl.oppositeCard c →
      Ctrl.calculateTurnAngle c t = 180) ∧
    (∀ (p : Delivery.Pose) (next : ℤ × ℤ) (cmds : List Delivery.RCmd)
      (p' : Delivery.Pose), Delivery.stepSegment p next = some (cmds, p') →
      Delivery.countTurns cmds ≤ 1) := by
  refine ⟨?_, ?_, ?_⟩
  · intro c t h; subst h; cases c <;> decide
  · intro c t h; subst h; cases c <;> decide
  · intro p next cmds p' h
    unfold Delivery.stepSegment at h
    cases hd : Delivery.getDirectionFromDelta (next.1 - p.x) (next.2 - p.y) with
    | none => rw [hd] at h; exact absurd h (by simp)
    | some td =>
      rw [hd] at h
      simp only [Option.some.injEq, Prod.mk.injEq] at h
      obtain ⟨hc, -⟩ := h
      subst hc
      by_cases ha : Delivery.calculateTurnAngle p.dir td = 0 <;>
        simp [Delivery.countTurns, ha, List.countP, List.countP.go]

/-- C5 witness: the amended statement applied to the opposite pairs
(up, down) and (north, south), and to the first segment of the delivery
scenario, which carries a single move command and no turn. -/
theorem c5_u_turn_witness :
    (Delivery.calculateTurnAngle Delivery.Direction.up Delivery.Direction.down).natAbs = 180 ∧
    Ctrl.calculateTurnAngle Ctrl.Card.north Ctrl.Card.south = 180 ∧
    Delivery.countTurns [Delivery.RCmd.move 24] ≤ 1 :=
  ⟨(c5_u_turn_amended.1 Delivery.Direction.up Delivery.Direction.down rfl).1,
   c5_u_turn_amended.2.1 Ctrl.Card.north Ctrl.Card.south rfl,
   c5_u_turn_amended.2.2 ⟨2, 4, Delivery.Direction.up⟩ (2, 3)
     [Delivery.RCmd.move 24] ⟨2, 3, Delivery.Direction.up⟩ (by decide)⟩

/-- C7: processing the path (2,4), (2,3), (3,3) from the pose x 2, y 4
facing up issues only a 24-inch move for the first segment, a +90 turn
followed by a 24-inch move for the second, and ends at x 3, y 3 facing
right. -/
theorem c7_delivery_scenario :
    Delivery.processPath ⟨2, 4, Delivery.Direction.up⟩ [(2, 3), (3, 3)] =
      some ([[Delivery.RCmd.move 24],
             [Delivery.RCmd.turn 90, Delivery.RCmd.move 24]],
        ⟨3, 3, Delivery.Direction.right⟩) := by
  decide

/-- C3: while the device is already moving, an incoming `MOVE_DISTANCE` or
`TURN_ANGLE` command only emits the `BLOCKED` telemetry line and leaves
every field of the device state unchanged. -/
theorem c3_busy_commands_rejected :
    (∀ (st : Fw.RobotState) (now : ℕ) (q : ℚ), st.isMoving = true →
      Fw.moveDistance st now q = (st, [Fw.Ev.blocked])) ∧
    (∀ (st : Fw.RobotState) (now : ℕ) (q : ℚ), st.isMoving = true →
      Fw.turnAngle st now q = (st, [Fw.Ev.blocked])) := by
  constructor <;> intro st now q h <;>
    simp [Fw.moveDistance, Fw.turnAngle, h]

/-- C3 witness: a concrete busy state rejects both commands unchanged. -/
theorem c3_busy_witness :
    Fw.moveDistance { Fw.bootState with isMoving := true } 100 24 =
      ({ Fw.bootState with isMoving := true }, [Fw.Ev.blocked]) ∧
    Fw.turnAngle { Fw.bootState with isMoving := true } 100 90 =
      ({ Fw.bootState with isMoving := true }, [Fw.Ev.blocked]) :=
  ⟨c3_busy_commands_rejected.1 _ 100 24 rfl,
   c3_busy_commands_rejected.2 _ 100 90 rfl⟩

/-- C8: `sendCommand` always resolves — in every environment the promise
settles as resolved within the 5-second guard timeout, and when the
controller is disconnected (or the port is gone) nothing is written. -/
theorem c8_send_always_resolves :
    (∀ env : Ctrl.SendEnv,
      (Ctrl.sendCommand env).settled = Ctrl.Settled.resolved ∧
      (Ctrl.sendCommand env).settleTime ≤ Ctrl.SEND_TIMEOUT_MS) ∧
    (∀ env : Ctrl.SendEnv, env.portExists = false ∨ env.connected = false →
      (Ctrl.sendCommand env).wrote = false) := by
  constructor
  · intro env
    unfold Ctrl.sendCommand
    split
    · exact ⟨rfl, by simp [Ctrl.SEND_TIMEOUT_MS]⟩
    · split
      · exact ⟨rfl, by simp [Ctrl.SEND_TIMEOUT_MS]⟩
      · cases env.write <;> simp [Ctrl.SEND_TIMEOUT_MS]
  · intro env h
    unfold Ctrl.sendCommand
    have : ¬ (env.portExists = true ∧ env.connected = true) := by
      rcases h with h | h <;> simp [h]
    simp [this]

/-- C8 witness: a disconnected environment resolves without writing. -/
theorem c8_send_witness :
    (Ctrl.sendCommand ⟨false, false, false, Ctrl.WriteOutcome.ok, 0⟩).settled =
      Ctrl.Settled.resolved ∧
    (Ctrl.sendCommand ⟨false, false, false, Ctrl.WriteOutcome.ok, 0⟩).wrote = false :=
  ⟨(c8_send_always_resolves.1 _).1,
   c8_send_always_resolves.2 _ (Or.inl rfl)⟩

/-- C9: on the host controller a `moveDistance` with non-positive distance
and a `turnAngle` with angle zero send nothing and leave the stored pose
unchanged. -/
theorem c9_nonpositive_noop :
    (∀ (p : Ctrl.CPos) (q : ℚ), q ≤ 0 → Ctrl.moveDistance p q = (p, [])) ∧
    (∀ p : Ctrl.CPos, Ctrl.turnAngle p 0 = (p, [])) := by
  constructor
  · intro p q h
    simp [Ctrl.moveDistance, h]
  · intro p
    simp [Ctrl.turnAngle]

/-- C9 witness: the starting pose is untouched by a -1 inch move. -/
theorem c9_nonpositive_witness :
    Ctrl.moveDistance ⟨2, 4, Ctrl.Card.north⟩ (-1) = (⟨2, 4, Ctrl.Card.north⟩, []) :=
  c9_nonpositive_noop.1 _ (-1) (by norm_num)


/-- The debounce invariant of the latch state along a run: the hit counter
is the capped count of below cycles since the last clear cycle, the clear
counter the capped count of clear cycles since the last below cycle, and
the counter that could flip the latch from its current side has not yet
reached the threshold. -/
def LatchInv (s : Fw.LatchSt) (n m : ℕ) : Prop :=
  s.hit = min n 3 ∧ s.clear = min m 3 ∧
    (s.latched = false → s.hit < 3) ∧ (s.latched = true → s.clear < 3)

/-- One `latchStep` preserves the debounce invariant, with the below and
clear counts updated the way `belowSince` and `clearSince` update them. -/
theorem latchStep_inv (s : Fw.LatchSt) (d : Fw.Dists) (n m : ℕ)
    (h : LatchInv s n m) :
    LatchInv (Fw.latchStep s d).1
      (if Fw.anyBelow d then n + 1 else if Fw.allClearWithMargin d then 0 else n)
      (if Fw.anyBelow d then 0 else if Fw.allClearWithMargin d then m + 1 else m) := by
  obtain ⟨hh, hc, hl, hr⟩ := h
  unfold LatchInv Fw.latchStep Fw.REQUIRED_CONSECUTIVE_HITS
  cases hb : Fw.anyBelow d <;> cases hcl : Fw.allClearWithMargin d <;>
    simp only [hb, hcl, Bool.false_eq_true, if_true, if_false, ite_true,
      ite_false] <;> split_ifs <;> simp_all <;> omega

/-- The debounce invariant holds along every run of `checkForObstacles`
cycles, for any starting point satisfying it. -/
theorem runLatch_inv (l : List Fw.Dists) :
    ∀ (s : Fw.LatchSt) (n m : ℕ), LatchInv s n m →
    LatchInv (Fw.runLatch s l)
      (l.foldl (fun acc d => if Fw.anyBelow d then acc + 1
        else if Fw.allClearWithMargin d then 0 else acc) n)
      (l.foldl (fun acc d => if Fw.anyBelow d then 0
        else if Fw.allClearWithMargin d then acc + 1 else acc) m) := by
  induction l with
  | nil => intro s n m h; simpa [Fw.runLatch] using h
  | cons d rest ih =>
    intro s n m h
    simp only [Fw.runLatch, List.foldl_cons]
    exact ih _ _ _ (latchStep_inv s d n m h)

/-- The debounce invariant from the boot latch state. -/
theorem latchInit_inv (l : List Fw.Dists) :
    LatchInv (Fw.runLatch Fw.latchInit l) (Fw.belowSince l) (Fw.clearSince l) := by
  have h : LatchInv Fw.latchInit 0 0 := by
    refine ⟨rfl, rfl, ?_, ?_⟩ <;> intro _ <;> decide
  simpa [Fw.belowSince, Fw.clearSince] using runLatch_inv l Fw.latchInit 0 0 h

/-- Appending one cycle to a latch run is one `latchStep`. -/
theorem runLatch_append_singleton (s : Fw.LatchSt) (l : List Fw.Dists)
    (d : Fw.Dists) :
    Fw.runLatch s (l ++ [d]) = (Fw.latchStep (Fw.runLatch s l) d).1 := by
  simp [Fw.runLatch, List.foldl_append]

/-- The step applied by `belowSince` for one more cycle. -/
theorem belowSince_append_singleton (l : List Fw.Dists) (d : Fw.Dists) :
    Fw.belowSince (l ++ [d]) =
      (if Fw.anyBelow d then Fw.belowSince l + 1
        else if Fw.allClearWithMargin d then 0 else Fw.belowSince l) := by
  simp only [Fw.belowSince, List.foldl_append, List.foldl_cons, List.foldl_nil]

/-- The step applied by `clearSince` for one more cycle. -/
theorem clearSince_append_singleton (l : List Fw.Dists) (d : Fw.Dists) :
    Fw.clearSince (l ++ [d]) =
      (if Fw.anyBelow d then 0
        else if Fw.allClearWithMargin d then Fw.clearSince l + 1
        else Fw.clearSince l) := by
  simp only [Fw.clearSince, List.foldl_append, List.foldl_cons, List.foldl_nil]


/-- C4 counterexample: starting from boot, the cycles below, below, band,
below (where the band cycle reads above the trigger distance on every
sensor, so no sensor is below threshold) engage the latch at the fourth
cycle, although no three consecutive sampling cycles were below
threshold — a cycle in the hysteresis band does not reset the debounce
counter, contrary to the claimed consecutiveness. -/
theorem c4_band_cycle_breaks_consecutiveness :
    (Fw.runLatch Fw.latchInit [Fw.nearCycle, Fw.nearCycle, Fw.bandCycle]).latched = false ∧
    (Fw.runLatch Fw.latchInit
      [Fw.nearCycle, Fw.nearCycle, Fw.bandCycle, Fw.nearCycle]).latched = true ∧
    Fw.anyBelow Fw.bandCycle = false := by
  decide

/-- C4 (amended): the latch engages only on a below-threshold cycle and
only once at least 3 below-threshold cycles have accumulated since the
last all-clear-with-margin cycle (cycles inside the hysteresis band leave
the counter unchanged instead of resetting it); it clears only on an
all-clear-with-margin cycle once at least 3 such cycles have accumulated
since the last below-threshold cycle; 3 consecutive below cycles from boot
engage it, and 2 below cycles followed by any cycle that is not below
threshold do not. -/
theorem c4_latch_debounce_amended :
    (∀ (l : List Fw.Dists) (d : Fw.Dists),
      (Fw.runLatch Fw.latchInit l).latched = false →
      (Fw.runLatch Fw.latchInit (l ++ [d])).latched = true →
      Fw.anyBelow d = true ∧ 3 ≤ Fw.belowSince (l ++ [d])) ∧
    (∀ (l : List Fw.Dists) (d : Fw.Dists),
      (Fw.runLatch Fw.latchInit l).latched = true →
      (Fw.runLatch Fw.latchInit (l ++ [d])).latched = false →
      Fw.allClearWithMargin d = true ∧ 3 ≤ Fw.clearSince (l ++ [d])) ∧
    (Fw.runLatch Fw.latchInit [Fw.nearCycle, Fw.nearCycle, Fw.nearCycle]).latched = true ∧
    (∀ d : Fw.Dists, Fw.anyBelow d = false →
      (Fw.runLatch Fw.latchInit [Fw.nearCycle, Fw.nearCycle, d]).latched = false) := by
  refine ⟨?_, ?_, by decide, ?_⟩
  · intro l d hpre hpost
    have hinv := latchInit_inv l
    obtain ⟨hh, hc, hl, hr⟩ := hinv
    rw [runLatch_append_singleton] at hpost
    rw [belowSince_append_singleton]
    cases hb : Fw.anyBelow d
    · exfalso
      unfold Fw.latchStep Fw.REQUIRED_CONSECUTIVE_HITS at hpost
      cases hcl : Fw.allClearWithMargin d <;>
        simp only [hb, hcl, Bool.false_eq_true, if_true, if_false, ite_true,
          ite_false] at hpost <;> split_ifs at hpost <;> simp_all
      all_goals omega
    · refine ⟨rfl, ?_⟩
      unfold Fw.latchStep Fw.REQUIRED_CONSECUTIVE_HITS at hpost
      simp only [hb, if_true, ite_true] at hpost
      split_ifs at hpost with h1 h2 <;> simp_all
  · intro l d hpre hpost
    have hinv := latchInit_inv l
    obtain ⟨hh, hc, hl, hr⟩ := hinv
    rw [runLatch_append_singleton] at hpost
    rw [clearSince_append_singleton]
    cases hb : Fw.anyBelow d
    · cases hcl : Fw.allClearWithMargin d
      · exfalso
        unfold Fw.latchStep Fw.REQUIRED_CONSECUTIVE_HITS at hpost
        simp only [hb, hcl, Bool.false_eq_true, if_true, if_false, ite_true,
          ite_false] at hpost
        split_ifs at hpost <;> simp_all
        all_goals omega
      · refine ⟨rfl, ?_⟩
        unfold Fw.latchStep Fw.REQUIRED_CONSECUTIVE_HITS at hpost
        simp only [hb, hcl, Bool.false_eq_true, if_true, if_false, ite_true,
          ite_false] at hpost
        split_ifs at hpost <;> simp_all
    · exfalso
      unfold Fw.latchStep Fw.REQUIRED_CONSECUTIVE_HITS at hpost
      simp only [hb, if_true, ite_true] at hpost
      split_ifs at hpost <;> simp_all
  · intro d hb
    have htwo : Fw.runLatch Fw.latchInit [Fw.nearCycle, Fw.nearCycle] =
        ⟨2, 0, false⟩ := by decide
    have hstep : Fw.runLatch Fw.latchInit [Fw.nearCycle, Fw.nearCycle, d] =
        (Fw.latchStep ⟨2, 0, false⟩ d).1 := by
      have h := runLatch_append_singleton Fw.latchInit [Fw.nearCycle, Fw.nearCycle] d
      rw [htwo] at h
      exact h
    rw [hstep]
    unfold Fw.latchStep Fw.REQUIRED_CONSECUTIVE_HITS
    simp only [hb, Bool.false_eq_true, if_false, ite_false]
    split_ifs <;> simp_all

/-- C4 witness: the amended statement applied to three below cycles from
boot — the latch flips at the third cycle, which is below threshold, with
three accumulated below cycles. -/
theorem c4_latch_witness :
    Fw.anyBelow Fw.nearCycle = true ∧
    3 ≤ Fw.belowSince [Fw.nearCycle, Fw.nearCycle, Fw.nearCycle] :=
  c4_latch_debounce_amended.1 [Fw.nearCycle, Fw.nearCycle] Fw.nearCycle
    (by decide) (by decide)

/-- C2: in the concrete run `c2Trace`, a `MOVE_DISTANCE:24` command is
accepted from idle, the robot pauses for an obstacle at time 400, the
obstacle clears from time 600 on, and the device is polled until time
20000 — yet `MOVEMENT_COMPLETE:SUCCESS` is never emitted and the movement
never resumes: the pause path calls `stopMotors()`, which clears
`isMoving` (and overwrites `currentCommand` with `STOP`), so the
`isMoving && isPrecisionMode` gate in `loop()` stops polling
`checkPrecisionMovement` forever.  The claimed completion at effective
elapsed time `targetDistance * MS_PER_INCH` (8000 ms for 24 inches, and in
particular at least 6000 ms) never happens; the final state still records
`pausedForObstacle` with no accumulated pause time. -/
theorem c2_paused_move_never_completes :
    Fw.Ev.movingMsg ∈ Fw.c2Run.2 ∧
    Fw.Ev.paused ∈ Fw.c2Run.2 ∧
    Fw.Ev.latchClearedMsg ∈ Fw.c2Run.2 ∧
    Fw.Ev.complete ∉ Fw.c2Run.2 ∧
    Fw.Ev.resumed ∉ Fw.c2Run.2 ∧
    Fw.c2Run.1.isMoving = false ∧
    Fw.c2Run.1.pausedForObstacle = true ∧
    Fw.c2Run.1.currentCommand = ("STOP") ∧
    Fw.c2Run.1.totalPausedMs = 0 ∧
    Fw.castUL ((24 : ℚ) * Fw.MS_PER_INCH) = 8000 := by
  decide

/-- C10 counterexample: an unrecognised line is answered with two lines,
the uniform received-command echo and the unknown-command diagnostic, not
with the diagnostic alone. -/
theorem c10_unknown_also_echoes :
    (Fw.processLine (Fw.quietIn 0 none Fw.clearCycle) Fw.bootState ("foo")).2 =
      [Fw.Ev.received ("FOO"), Fw.Ev.unknownCmd ("FOO")] ∧
    (Fw.processLine (Fw.quietIn 0 none Fw.clearCycle) Fw.bootState ("foo")).2 ≠
      [Fw.Ev.unknownCmd ("FOO")] := by
  decide

/-- C10 (amended): every received line is trimmed and upper-cased before
dispatch, so two lines with the same normalisation have exactly the same
effect (command matching is case-insensitive and whitespace-tolerant);
a line matching no known command leaves the entire device state unchanged
and is answered with the uniform received-command echo followed by the
unknown-command diagnostic, and nothing else. -/
theorem c10_normalize_dispatch_amended :
    (∀ (i : Fw.LoopIn) (st : Fw.RobotState) (l1 l2 : String),
      Fw.normalizeLine l1 = Fw.normalizeLine l2 →
      Fw.processLine i st l1 = Fw.processLine i st l2) ∧
    (∀ (i : Fw.LoopIn) (st : Fw.RobotState) (l : String),
      Fw.parseCommand (Fw.normalizeLine l) = Fw.FwCmd.unknown →
      (Fw.processLine i st l).1 = st ∧
      (Fw.processLine i st l).2 =
        [Fw.Ev.received (Fw.normalizeLine l),
         Fw.Ev.unknownCmd (Fw.normalizeLine l)]) := by
  constructor
  · intro i st l1 l2 h
    unfold Fw.processLine
    rw [h]
  · intro i st l h
    refine ⟨?_, ?_⟩ <;>
      simp only [Fw.processLine, Fw.processCommandLine, h, Fw.execCommand]

/-- C10 witness: the line with whitespace and lower case has exactly the
effect of `RESET`, and a concrete unknown line leaves the boot state
unchanged. -/
theorem c10_dispatch_witness :
    Fw.processLine (Fw.quietIn 0 none Fw.clearCycle) Fw.bootState ("  reset ") =
      Fw.processLine (Fw.quietIn 0 none Fw.clearCycle) Fw.bootState ("RESET") ∧
    (Fw.processLine (Fw.quietIn 0 none Fw.clearCycle) Fw.bootState ("foo")).1 =
      Fw.bootState :=
  ⟨c10_normalize_dispatch_amended.1 _ _ _ _ (by decide),
   (c10_normalize_dispatch_amended.2 _ _ _ (by decide)).1⟩

/-- `unsigned long` arithmetic is exact below 2 to the 32. -/
theorem u32_eq_toNat (n : ℤ) (h0 : 0 ≤ n) (h1 : n < 2 ^ 32) :
    Fw.u32 n = n.toNat := by
  unfold Fw.u32
  rw [Int.emod_eq_of_lt h0 h1]

/-- The state invariant maintained by the firmware loop: the accumulated
pause time is always zero (the obstacle-pause path stops the motors, which
clears `isMoving`, so the resume branch that would accumulate pause time
is unreachable), a moving `MOVE_DISTANCE` state is never marked paused,
and the recorded movement start time never exceeds the current time. -/
def FwInv (st : Fw.RobotState) (t : ℕ) : Prop :=
  st.totalPausedMs = 0 ∧
    (st.isMoving = true → st.currentCommand = ("MOVE_DISTANCE") →
      st.pausedForObstacle = false) ∧
    st.movementStartTime ≤ t

/-- `stopMotors` preserves the loop invariant. -/
theorem fwInv_stopMotors (st : Fw.RobotState) (t : ℕ) (h : FwInv st t) :
    FwInv (Fw.stopMotors st).1 t := by
  obtain ⟨h1, h2, h3⟩ := h
  refine ⟨h1, ?_, h3⟩
  intro hm
  simp [Fw.stopMotors] at hm

/-- `moveDistance` preserves the loop invariant. -/
theorem fwInv_moveDistance (st : Fw.RobotState) (t now : ℕ) (q : ℚ)
    (h : FwInv st t) (ht : t ≤ now) :
    FwInv (Fw.moveDistance st now q).1 now := by
  obtain ⟨h1, h2, h3⟩ := h
  unfold Fw.moveDistance
  split
  · exact ⟨h1, h2, le_trans h3 ht⟩
  · exact ⟨rfl, fun _ _ => rfl, le_refl now⟩

/-- `turnAngle` preserves the loop invariant. -/
theorem fwInv_turnAngle (st : Fw.RobotState) (t now : ℕ) (q : ℚ)
    (h : FwInv st t) (ht : t ≤ now) :
    FwInv (Fw.turnAngle st now q).1 now := by
  obtain ⟨h1, h2, h3⟩ := h
  unfold Fw.turnAngle
  split
  · exact ⟨h1, h2, le_trans h3 ht⟩
  · refine ⟨h1, ?_, le_refl now⟩
    intro _ hcmd
    simp only [] at hcmd
    exact absurd hcmd (by decide)

/-- The blocking forward loop ends with `isMoving` cleared and the pause
accounting and start time untouched. -/
theorem moveForwardGo_fields (reads : List Fw.Dists) :
    ∀ st : Fw.RobotState,
      (Fw.moveForwardGo st reads).1.totalPausedMs = st.totalPausedMs ∧
      (Fw.moveForwardGo st reads).1.isMoving = false ∧
      (Fw.moveForwardGo st reads).1.movementStartTime = st.movementStartTime := by
  induction reads with
  | nil => intro st; simp [Fw.moveForwardGo, Fw.stopMotors]
  | cons d rest ih =>
    intro st
    simp only [Fw.moveForwardGo, Fw.checkForObstacles]
    split
    · simp [Fw.stopMotors]
    · exact ih _

/-- The legacy `moveForward` preserves the loop invariant. -/
theorem fwInv_moveForward (st : Fw.RobotState) (t : ℕ) (reads : List Fw.Dists)
    (h : FwInv st t) :
    FwInv (Fw.moveForward st reads).1 t := by
  obtain ⟨h1, h2, h3⟩ := h
  unfold Fw.moveForward
  split
  · exact ⟨h1, h2, h3⟩
  · obtain ⟨g1, g2, g3⟩ := moveForwardGo_fields reads
      { st with isMoving := true, currentCommand := ("FORWARD") }
    refine ⟨by rw [g1]; exact h1, ?_, by rw [g3]; exact h3⟩
    intro hm
    rw [g2] at hm
    cases hm

/-- The legacy `turnLeft` preserves the loop invariant. -/
theorem fwInv_turnLeft (st : Fw.RobotState) (t : ℕ) (h : FwInv st t) :
    FwInv (Fw.turnLeft st).1 t := by
  obtain ⟨h1, h2, h3⟩ := h
  unfold Fw.turnLeft
  split
  · exact ⟨h1, h2, h3⟩
  · refine ⟨h1, ?_, h3⟩
    intro hm
    simp [Fw.stopMotors] at hm

/-- The legacy `turnRight` preserves the loop invariant. -/
theorem fwInv_turnRight (st : Fw.RobotState) (t : ℕ) (h : FwInv st t) :
    FwInv (Fw.turnRight st).1 t := by
  obtain ⟨h1, h2, h3⟩ := h
  unfold Fw.turnRight
  split
  · exact ⟨h1, h2, h3⟩
  · refine ⟨h1, ?_, h3⟩
    intro hm
    simp [Fw.stopMotors] at hm

/-- The table LED handlers preserve the loop invariant. -/
theorem fwInv_tables (st : Fw.RobotState) (t : ℕ) (n : ℕ) (h : FwInv st t) :
    FwInv (Fw.tableArrived st n).1 t ∧ FwInv (Fw.tableReceived st n).1 t := by
  obtain ⟨h1, h2, h3⟩ := h
  constructor <;>
    [unfold Fw.tableArrived; unfold Fw.tableReceived] <;>
    split_ifs <;> exact ⟨h1, h2, h3⟩

/-- `testUltrasonicSensors` preserves the loop invariant. -/
theorem fwInv_testUltrasonic (st : Fw.RobotState) (t : ℕ) (d : Fw.Dists)
    (h : FwInv st t) : FwInv (Fw.testUltrasonic st d).1 t := by
  obtain ⟨h1, h2, h3⟩ := h
  exact ⟨h1, h2, h3⟩

/-- The `RESET` handler preserves the loop invariant. -/
theorem fwInv_resetState (st : Fw.RobotState) (t : ℕ) (h : FwInv st t) :
    FwInv (Fw.resetState st).1 t := by
  obtain ⟨h1, h2, h3⟩ := h
  refine ⟨h1, ?_, h3⟩
  intro hm
  simp [Fw.resetState, Fw.stopMotors] at hm

/-- `checkPrecisionMovement` preserves the loop invariant whenever invoked
through the `isMoving && isPrecisionMode` gate: the resume branch that
would accumulate pause time is unreachable because a moving
`MOVE_DISTANCE` state is never marked paused. -/
theorem fwInv_checkPrecision (st : Fw.RobotState) (t now : ℕ) (d : Fw.Dists)
    (g : Option (ℤ × ℤ)) (h : FwInv st t) (ht : t ≤ now)
    (hm : st.isMoving = true) :
    FwInv (Fw.checkPrecisionMovement st now d g).1 now := by
  obtain ⟨h1, h2, h3⟩ := h
  have h3' : st.movementStartTime ≤ now := le_trans h3 ht
  unfold Fw.checkPrecisionMovement
  split
  · rename_i hcmd
    have hp : st.pausedForObstacle = false := h2 hm hcmd
    unfold Fw.checkForObstacles Fw.stopMotors Fw.driveWithGyro FwInv
    rcases hls : Fw.latchStep st.latch d with ⟨l, evs⟩
    cases g <;> simp only [hls, hp] <;> split_ifs <;>
      refine ⟨?_, ?_, ?_⟩ <;> simp_all
  · split
    · unfold Fw.stopMotors FwInv
      simp only []
      split_ifs <;> refine ⟨?_, ?_, ?_⟩ <;> simp_all
    · exact ⟨h1, h2, h3'⟩

/-- The loop invariant is monotone in the time bound. -/
theorem fwInv_mono (st : Fw.RobotState) (t t' : ℕ) (h : FwInv st t)
    (ht : t ≤ t') : FwInv st t' :=
  ⟨h.1, h.2.1, le_trans h.2.2 ht⟩

/-- The state produced by `processLine` is the state produced by the
dispatched handler. -/
theorem processLine_fst (i : Fw.LoopIn) (st : Fw.RobotState) (l : String) :
    (Fw.processLine i st l).1 =
      (Fw.execCommand i st (Fw.normalizeLine l)
        (Fw.parseCommand (Fw.normalizeLine l))).1 := by
  unfold Fw.processLine Fw.processCommandLine
  rcases h : Fw.execCommand i st (Fw.normalizeLine l)
    (Fw.parseCommand (Fw.normalizeLine l)) with ⟨a, b⟩
  simp [h]

/-- Serial line processing preserves the loop invariant. -/
theorem fwInv_processLine (i : Fw.LoopIn) (st : Fw.RobotState) (t : ℕ)
    (l : String) (h : FwInv st t) (ht : t ≤ i.now) :
    FwInv (Fw.processLine i st l).1 i.now := by
  rw [processLine_fst]
  cases hp : Fw.parseCommand (Fw.normalizeLine l) <;>
    simp only [Fw.execCommand]
  case moveDist arg => exact fwInv_moveDistance st t i.now _ h ht
  case turnAng arg => exact fwInv_turnAngle st t i.now _ h ht
  case forward => exact fwInv_mono _ t i.now (fwInv_moveForward st t i.fwdReads h) ht
  case leftTurn => exact fwInv_mono _ t i.now (fwInv_turnLeft st t h) ht
  case rightTurn => exact fwInv_mono _ t i.now (fwInv_turnRight st t h) ht
  case stopCmd => exact fwInv_mono _ t i.now (fwInv_stopMotors st t h) ht
  case testUts => exact fwInv_mono _ t i.now (fwInv_testUltrasonic st t i.tuDists h) ht
  case testGyro => exact fwInv_mono _ t i.now h ht
  case tableArr n => exact fwInv_mono _ t i.now ((fwInv_tables st t n h).1) ht
  case tableRec n => exact fwInv_mono _ t i.now ((fwInv_tables st t n h).2) ht
  case statusCmd => exact fwInv_mono _ t i.now h ht
  case resetCmd => exact fwInv_mono _ t i.now (fwInv_resetState st t h) ht
  case unknown => exact fwInv_mono _ t i.now h ht

/-- The serial and movement phase preserves the loop invariant. -/
theorem fwInv_loopTail (i : Fw.LoopIn) (st : Fw.RobotState) (t : ℕ)
    (h : FwInv st t) (ht : t ≤ i.now) :
    FwInv (Fw.loopTail i st).1 i.now := by
  unfold Fw.loopTail
  cases hline : i.line <;> simp only []
  · split
    · rename_i hgate
      rcases hcp : Fw.checkPrecisionMovement st i.now i.sensChk i.accel with ⟨st4, e4⟩
      simp only [hcp]
      have hm : st.isMoving = true := ((Bool.and_eq_true _ _).mp hgate).1
      have hx := fwInv_checkPrecision st t i.now i.sensChk i.accel h ht hm
      rw [hcp] at hx
      exact hx
    · exact fwInv_mono _ t i.now h ht
  · rename_i lx
    rcases hpl : Fw.processLine i st lx with ⟨st3, e3⟩
    simp only [hpl]
    have h3 : FwInv st3 i.now := by
      have hx := fwInv_processLine i st t lx h ht
      rw [hpl] at hx
      exact hx
    split
    · rename_i hgate
      rcases hcp : Fw.checkPrecisionMovement st3 i.now i.sensChk i.accel with ⟨st4, e4⟩
      simp only [hcp]
      have hm : st3.isMoving = true := ((Bool.and_eq_true _ _).mp hgate).1
      have hx := fwInv_checkPrecision st3 i.now i.now i.sensChk i.accel h3
        (le_refl i.now) hm
      rw [hcp] at hx
      exact hx
    · exact h3

/-- One loop iteration preserves the loop invariant. -/
theorem fwInv_loopStep (i : Fw.LoopIn) (st : Fw.RobotState) (t : ℕ)
    (h : FwInv st t) (ht : t ≤ i.now) :
    FwInv (Fw.loopStep i st).1 i.now := by
  unfold Fw.loopStep Fw.checkForObstacles
  rcases hls : Fw.latchStep st.latch i.sensTop with ⟨l, evs⟩
  simp only [hls]
  split
  · rcases hlt : Fw.loopTail i { st with latch := l, lastObstacle := l.latched }
      with ⟨st', e34⟩
    simp only [hlt]
    have hx := fwInv_loopTail i { st with latch := l, lastObstacle := l.latched } t
      ⟨h.1, h.2.1, h.2.2⟩ ht
    rw [hlt] at hx
    exact hx
  · rcases hlt : Fw.loopTail i { st with latch := l } with ⟨st', e34⟩
    simp only [hlt]
    have hx := fwInv_loopTail i { st with latch := l } t
      ⟨h.1, h.2.1, h.2.2⟩ ht
    rw [hlt] at hx
    exact hx

/-- Every reachable device state satisfies the loop invariant; in
particular the accumulated pause time of every reachable state is zero. -/
theorem fwInv_reachable (st : Fw.RobotState) (t : ℕ)
    (h : Fw.Reachable st t) : FwInv st t := by
  induction h with
  | boot => exact ⟨rfl, fun _ _ => rfl, le_refl 0⟩
  | step st' t' i hr hle ih => exact fwInv_loopStep i st' t' ih hle

/-- C6: for every reachable device state in which a `TURN_ANGLE` command
is executing, a poll of `checkPrecisionMovement` at time `now` emits
`MOVEMENT_COMPLETE:SUCCESS` exactly when the time since the command
started has reached the calibrated turn time (the truncation of
`abs(targetAngle) / DEGREES_PER_MS` milliseconds) — regardless of the
pause history of any earlier movement in the session, because in every
reachable state the accumulated pause time is zero.  (The bound on
`now - movementStartTime` keeps the 32-bit `millis()` arithmetic exact;
it holds for any session shorter than about 49.7 days.) -/
theorem c6_turn_runs_calibrated_time :
    ∀ (st : Fw.RobotState) (t now : ℕ) (d : Fw.Dists) (g : Option (ℤ × ℤ)),
      Fw.Reachable st t →
      st.currentCommand = ("TURN_ANGLE") →
      st.isMoving = true →
      st.isPrecisionMode = true →
      t ≤ now →
      (now : ℤ) - st.movementStartTime < 2 ^ 32 →
      (Fw.Ev.complete ∈ (Fw.checkPrecisionMovement st now d g).2 ↔
        Fw.castUL (|st.targetAngle| / Fw.DEGREES_PER_MS) +
          st.movementStartTime ≤ now) := by
  intro st t now d g hr hcmd hm hp ht hb
  obtain ⟨h1, h2, h3⟩ := fwInv_reachable st t hr
  have hstart : st.movementStartTime ≤ now := le_trans h3 ht
  have heff : Fw.u32 ((now : ℤ) - st.movementStartTime - st.totalPausedMs) =
      now - st.movementStartTime := by
    rw [h1]
    simp only [Nat.cast_zero, sub_zero]
    rw [u32_eq_toNat _ (by omega) hb]
    exact Int.toNat_sub now st.movementStartTime
  unfold Fw.checkPrecisionMovement
  rw [hcmd]
  rw [if_neg (by decide), if_pos rfl]
  simp only [heff]
  split_ifs with hcond
  · simp only [Fw.stopMotors]
    constructor
    · intro _
      omega
    · intro _
      simp
  · constructor
    · intro hmem
      exact absurd hmem (by simp)
    · intro hle
      exfalso
      omega

/-- C6 witness: a turn of 90 degrees accepted at time 5 in a freshly
booted device completes at a poll at time 505 (500 ms of turn time) and
not at a poll at time 504. -/
theorem c6_turn_witness :
    Fw.Ev.complete ∈
      (Fw.checkPrecisionMovement Fw.turnState 505 Fw.clearCycle none).2 ∧
    Fw.Ev.complete ∉
      (Fw.checkPrecisionMovement Fw.turnState 504 Fw.clearCycle none).2 := by
  have hr : Fw.Reachable Fw.turnState 5 :=
    Fw.Reachable.step Fw.bootState 0 Fw.turnAccept Fw.Reachable.boot (by decide)
  constructor
  · exact (c6_turn_runs_calibrated_time Fw.turnState 5 505 Fw.clearCycle none hr
      (by decide) (by decide) (by decide) (by decide) (by decide)).mpr (by decide)
  · intro hmem
    have hle := (c6_turn_runs_calibrated_time Fw.turnState 5 504 Fw.clearCycle none hr
      (by decide) (by decide) (by decide) (by decide) (by decide)).mp hmem
    exact absurd hle (by decide)
